import Mathlib

/-!
Verification of the deeplx-cli command-line translation client.

This file is a shallow embedding, in Lean 4, of the logic of `main.go`:
the configuration loading phase, the flag/config precedence merge, the
input-text resolution, the translation client `translateText`, and the
output phase.  External effects (filesystem, HTTP transport, JSON
decoding of an untrusted body, clipboard) are modelled as explicit
parameters describing their outcome; everything the program itself
computes is translated directly from the Go source.

Modelling notes, recorded once here:

* Go strings are modelled as Lean `String`s; a Go string is a byte
  sequence while a Lean `String` is a sequence of characters, which is
  faithful for the comparisons and concatenations the program performs.
* The `flag` package declares every string flag with default value `""`
  (main.go lines 156-161), so a flag that was never passed and a flag
  explicitly passed as the empty string yield the same variable value;
  flags are therefore modelled as plain `String` parameters where `""`
  stands for both "absent" and "explicitly empty".
* `http.Post` either fails (transport error) or yields a response with a
  status code and a body.  Reading the body (`io.ReadAll`) can also fail
  mid-stream in Go; that failure is folded into the transport-error case
  of `HttpOutcome`, since both mean the transport did not deliver a
  complete response.  `json.Marshal` of a struct of three strings cannot
  fail in Go (invalid UTF-8 is replaced, not rejected), so the marshal
  error branch at main.go line 72 is dead and not modelled.
* `json.Unmarshal` into `TranslationResponse` is modelled by an
  arbitrary decoding oracle `decode : String → Option TranslationResponse`
  (`none` = unmarshal error), so every theorem below holds for every
  possible JSON decoder behaviour.
* `log.Fatalf` prints a diagnostic and terminates the process with exit
  status 1 (non-zero); it is modelled by dedicated fatal constructors.
-/

/-- The constant `defaultDeepLXAPI` from main.go line 21. -/
def defaultDeepLXAPI : String := "https://deeplx.vercel.app/translate"

/-- The `Config` struct (main.go lines 29-33): the YAML configuration
file fields `url`, `source_lang`, `target_lang`. -/
structure Config where
  url : String
  sourceLang : String
  targetLang : String
deriving DecidableEq, Repr

/-- The `TranslationRequest` struct (main.go lines 36-40): the JSON body
of the POST request. -/
structure TranslationRequest where
  text : String
  sourceLang : String
  targetLang : String
deriving DecidableEq, Repr

/-- The `TranslationResponse` struct (main.go lines 43-48): the decoded
JSON response with fields `code`, `id`, `message`, `data`. -/
structure TranslationResponse where
  code : Int
  id : Int
  message : String
  data : String
deriving DecidableEq, Repr

/-- Outcome of the single `http.Post` call in `translateText`
(main.go line 76): either the transport fails (including a failure to
read the response body to completion), or a complete response with a
status code and a raw body is delivered. -/
inductive HttpOutcome where
  | transportError (msg : String)
  | response (status : Nat) (body : String)
deriving DecidableEq, Repr

/-- The distinct error cases of `translateText` (main.go lines 77-100),
each carrying exactly the data the corresponding error constructor
formats into the error message. -/
inductive TranslateError where
  | transport (msg : String)
  | httpStatus (status : Nat) (body : String)
  | decodeFailure
  | apiCode (code : Int) (message : String)
deriving DecidableEq, Repr

/-- Shallow embedding of `translateText` (main.go lines 66-103).  The
HTTP call's outcome and the JSON decoder are passed explicitly; the
control flow mirrors the source: transport error first, then the
status check against `http.StatusOK` (200) returning status and raw
body, then `json.Unmarshal`, then the check of the decoded `Code`
field against 200 returning code and message, and finally the decoded
`Data` field. -/
def translateText (decode : String → Option TranslationResponse) :
    HttpOutcome → Except TranslateError String
  | .transportError m => .error (.transport m)
  | .response status body =>
    if status ≠ 200 then
      .error (.httpStatus status body)
    else
      match decode body with
      | none => .error .decodeFailure
      | some r =>
        if r.code ≠ 200 then
          .error (.apiCode r.code r.message)
        else
          .ok r.data

/-- Embedding of `strings.TrimSuffix` as used at main.go line 219 (the
older variant in the repository carries its own equivalent `trimSuffix`
helper): if `suffix` is a suffix of `s`, drop it from the end, otherwise
return `s` unchanged. -/
def trimSuffix (s suffix : String) : String :=
  if suffix.data <:+ s.data then
    ⟨s.data.take (s.data.length - suffix.data.length)⟩
  else s

/-- The positional-argument loop of main.go lines 206-211: append each
argument, inserting a single space after every argument but the last. -/
def joinArgs : List String → String
  | [] => ""
  | [a] => a
  | a :: rest => a ++ " " ++ joinArgs rest

/-- Input-text resolution (main.go lines 200-220): the text flag if
non-empty, else the positional arguments joined by the loop above if
there is at least one, else standard input read to end with a trailing
newline removed by `trimSuffix`. -/
def resolveInputText (textArg : String) (args : List String) (stdin : String) : String :=
  if textArg ≠ "" then textArg
  else if args.length > 0 then joinArgs args
  else trimSuffix stdin "\n"

/-- The effective-URL computation (main.go lines 174-180): start from
`defaultDeepLXAPI`, overwrite with the config value if non-empty, then
overwrite with the url flag value if non-empty. -/
def finalURL (cfg : Config) (urlArg : String) : String :=
  let f := defaultDeepLXAPI
  let f := if cfg.url ≠ "" then cfg.url else f
  let f := if urlArg ≠ "" then urlArg else f
  f

/-- The effective-language computation shared by source and target
(main.go lines 182-198): start from the config value; the long-form
flag wins if non-empty, else the shorthand flag if non-empty, else the
built-in default when the config value is empty. -/
def finalLang (cfgVal longArg shortArg defaultVal : String) : String :=
  let f := cfgVal
  if longArg ≠ "" then longArg
  else if shortArg ≠ "" then shortArg
  else if f = "" then defaultVal
  else f

/-- The `finalSourceLang` computation (main.go lines 182-189), with
built-in default "auto". -/
def finalSourceLang (cfg : Config) (longArg shortArg : String) : String :=
  finalLang cfg.sourceLang longArg shortArg "auto"

/-- The `finalTargetLang` computation (main.go lines 191-198), with
built-in default "EN". -/
def finalTargetLang (cfg : Config) (longArg shortArg : String) : String :=
  finalLang cfg.targetLang longArg shortArg "EN"

/-- The default document written on first run (main.go lines 118-122). -/
def defaultConfig : Config :=
  { url := defaultDeepLXAPI, sourceLang := "auto", targetLang := "EN" }

/-- Outcome of the stat call on the config path at main.go line 116:
either the file exists, or the error satisfies `os.IsNotExist`, or the
stat failed with some other error. -/
inductive StatResult where
  | statOk
  | statNotExist
  | statOtherError
deriving DecidableEq, Repr

/-- Result of the configuration phase (main.go lines 114-145).  `fatal`
is the fatal log call at line 136.  Otherwise the phase yields the
in-memory configuration the rest of `main` uses, together with the
document passed to `os.WriteFile`, if a write was attempted (`none`
means the program never attempted to write the config file). -/
inductive Phase1Result where
  | fatal
  | ok (cfg : Config) (written : Option Config)
deriving DecidableEq, Repr

/-- The document this phase attempted to write, `none` when no write
was attempted (the fatal path performs no write). -/
def Phase1Result.writtenDoc : Phase1Result → Option Config
  | .fatal => none
  | .ok _ w => w

/-- Whether the phase terminated the process fatally. -/
def Phase1Result.isFatal : Phase1Result → Bool
  | .fatal => true
  | .ok _ _ => false

/-- Shallow embedding of the configuration phase, main.go lines 114-145.
`stat` is the outcome of the stat call; `writeOk` is the outcome of the
`os.WriteFile` call when one happens (the code only logs on write
failure, so it influences nothing); `loadResult` is the outcome of the
subsequent `loadConfig` call, where `.error ()` covers both a read
failure and a YAML parse failure (main.go lines 51-63).  When the file
does not exist, the constant default document is marshalled (which
succeeds for this constant struct) and written, and the configuration
starts as `defaultConfig`; on any other stat error the program exits
fatally; when the file exists the configuration starts as the empty
Config value of line 114.  In every non-fatal branch `loadConfig` is
then attempted: its result replaces the configuration on success and is
only logged as a warning on failure. -/
def loadPhase (stat : StatResult) (writeOk : Bool)
    (loadResult : Except Unit Config) : Phase1Result :=
  let _ := writeOk
  match stat with
  | .statNotExist =>
    match loadResult with
    | .ok c => .ok c (some defaultConfig)
    | .error _ => .ok defaultConfig (some defaultConfig)
  | .statOtherError => .fatal
  | .statOk =>
    match loadResult with
    | .ok c => .ok c none
    | .error _ => .ok ⟨"", "", ""⟩ none

/-- Outcome of `main` between text resolution and the HTTP call
(main.go lines 200-230): either the fatal exit at lines 222-224 with no
request issued, or a `TranslationRequest` handed to `translateText`
together with the effective URL. -/
inductive RunOutcome where
  | fatalNoText
  | translate (req : TranslationRequest) (url : String)
deriving DecidableEq, Repr

/-- The translation requests issued by this run: none on the fatal
path, exactly one otherwise. -/
def RunOutcome.issuedRequests : RunOutcome → List TranslationRequest
  | .fatalNoText => []
  | .translate r _ => [r]

/-- Whether the run ended in the fatal exit for missing input text. -/
def RunOutcome.exitsFatally : RunOutcome → Bool
  | .fatalNoText => true
  | .translate _ _ => false

/-- Main's text resolution followed by the empty-text check and the
call to `translateText` (main.go lines 200-230). -/
def resolveAndRun (textArg : String) (args : List String) (stdin : String)
    (src tgt url : String) : RunOutcome :=
  let inputText := resolveInputText textArg args stdin
  if inputText = "" then .fatalNoText
  else .translate ⟨inputText, src, tgt⟩ url

/-- The output phase (main.go lines 232-239): `clipboard.WriteAll` is
attempted and its error inspected, but both branches of the check are
empty, after which the text followed by a newline is printed and `main`
returns, giving exit status 0.  The result is the pair of the bytes
written to standard output and the process exit code. -/
def outputPhase (translatedText : String) (clipboardWriteOk : Bool) : String × Nat :=
  let _ := clipboardWriteOk
  (translatedText ++ "\n", 0)

/-- The tail of a space-separated join: one leading space before every
element.  Helper for relating `joinArgs` to `String.intercalate`. -/
def sepJoin : List String → String
  | [] => ""
  | a :: rest => " " ++ a ++ sepJoin rest

/-- The accumulator loop of `String.intercalate` prepends its
accumulator to the space-joined tail. -/
theorem intercalate_go_eq (as : List String) :
    ∀ acc : String, String.intercalate.go acc " " as = acc ++ sepJoin as := by
  induction as with
  | nil => intro acc; simp [String.intercalate.go, sepJoin]
  | cons a t ih =>
    intro acc
    rw [String.intercalate.go, ih, sepJoin]
    simp [String.append_assoc]

/-- `joinArgs` on a non-empty list is the head followed by the
space-joined tail. -/
theorem joinArgs_cons (a : String) (t : List String) :
    joinArgs (a :: t) = a ++ sepJoin t := by
  induction t generalizing a with
  | nil => simp [joinArgs, sepJoin]
  | cons b t ih =>
    show a ++ " " ++ joinArgs (b :: t) = a ++ sepJoin (b :: t)
    rw [ih, sepJoin]
    simp [String.append_assoc]

/-- The positional-argument loop of `main` computes exactly
`String.intercalate " "`. -/
theorem joinArgs_eq_intercalate (args : List String) :
    joinArgs args = String.intercalate " " args := by
  cases args with
  | nil => rfl
  | cons a t => rw [joinArgs_cons, String.intercalate, intercalate_go_eq]

/-- `trimSuffix` removes exactly one trailing newline. -/
theorem trimSuffix_append_newline (s : String) :
    trimSuffix (s ++ "\n") "\n" = s := by
  obtain ⟨d⟩ := s
  simp only [trimSuffix, String.data_append]
  rw [if_pos (List.suffix_append d "\n".data)]
  simp only [List.length_append]
  norm_num

/-- `trimSuffix` leaves a string without the suffix unchanged. -/
theorem trimSuffix_of_not_suffix (s : String) (h : ¬ ("\n".data <:+ s.data)) :
    trimSuffix s "\n" = s := by
  simp [trimSuffix, h]

/-- C1.  `translateText` returns an error in exactly the enumerated
cases — transport failure; HTTP status other than 200 (error carries
the status and the raw body); JSON decode failure; decoded code field
other than 200 (error carries that code and the message field) — and
the decoded data field otherwise. -/
theorem translateText_cases (decode : String → Option TranslationResponse)
    (o : HttpOutcome) :
    (∀ m, o = .transportError m → translateText decode o = .error (.transport m)) ∧
    (∀ s b, o = .response s b → s ≠ 200 →
      translateText decode o = .error (.httpStatus s b)) ∧
    (∀ b, o = .response 200 b → decode b = none →
      translateText decode o = .error .decodeFailure) ∧
    (∀ b r, o = .response 200 b → decode b = some r → r.code ≠ 200 →
      translateText decode o = .error (.apiCode r.code r.message)) ∧
    (∀ b r, o = .response 200 b → decode b = some r → r.code = 200 →
      translateText decode o = .ok r.data) ∧
    ((∃ e, translateText decode o = .error e) ↔
      ¬ ∃ b r, o = .response 200 b ∧ decode b = some r ∧ r.code = 200) := by
  refine ⟨?_, ?_, ?_, ?_, ?_, ?_⟩
  · rintro m rfl; rfl
  · rintro s b rfl hs; simp [translateText, hs]
  · rintro b rfl hd; simp [translateText, hd]
  · rintro b r rfl hd hc; simp [translateText, hd, hc]
  · rintro b r rfl hd hc; simp [translateText, hd, hc]
  · cases o with
    | transportError m =>
      constructor
      · rintro _ ⟨b, r, heq, _⟩; exact HttpOutcome.noConfusion heq
      · intro _; exact ⟨.transport m, rfl⟩
    | response s b =>
      by_cases hs : s = 200
      · subst hs
        cases hd : decode b with
        | none =>
          constructor
          · rintro _ ⟨b', r, heq, hd', _⟩
            cases HttpOutcome.response.inj heq with
            | intro h1 h2 => subst h2; rw [hd] at hd'; exact Option.noConfusion hd'
          · intro _; exact ⟨.decodeFailure, by simp [translateText, hd]⟩
        | some r =>
          by_cases hc : r.code = 200
          · constructor
            · rintro ⟨e, he⟩ _
              simp [translateText, hd, hc] at he
            · intro h; exact absurd ⟨b, r, rfl, hd, hc⟩ h
          · constructor
            · rintro _ ⟨b', r', heq, hd', hc'⟩
              cases HttpOutcome.response.inj heq with
              | intro h1 h2 =>
                subst h2; rw [hd] at hd'
                cases Option.some.inj hd'
                exact hc hc'
            · intro _; exact ⟨.apiCode r.code r.message, by simp [translateText, hd, hc]⟩
      · constructor
        · rintro _ ⟨b', r, heq, _⟩
          cases HttpOutcome.response.inj heq with
          | intro h1 h2 => exact hs h1
        · intro _; exact ⟨.httpStatus s b, by simp [translateText, hs]⟩

/-- Witness for C1: a concrete decoder and response exercising the
success case of `translateText_cases`. -/
theorem translateText_cases_witness :
    translateText (fun _ => some ⟨200, 0, "", "hello"⟩) (.response 200 "body") =
      .ok "hello" :=
  (translateText_cases (fun _ => some ⟨200, 0, "", "hello"⟩)
    (.response 200 "body")).2.2.2.2.1 "body" ⟨200, 0, "", "hello"⟩ rfl rfl rfl

/-- C2.  Input text is resolved in the fixed order: non-empty text flag
first, else the positional arguments joined with single spaces in their
original order, else standard input with a single trailing newline
stripped; in particular a stdin of "Hi" followed by a newline resolves
to "Hi". -/
theorem resolveInputText_order (textArg : String) (args : List String)
    (stdin : String) :
    (resolveInputText textArg args stdin =
      if textArg ≠ "" then textArg
      else if args ≠ [] then String.intercalate " " args
      else trimSuffix stdin "\n") ∧
    trimSuffix (stdin ++ "\n") "\n" = stdin ∧
    resolveInputText "" [] "Hi\n" = "Hi" := by
  refine ⟨?_, trimSuffix_append_newline stdin, by decide⟩
  unfold resolveInputText
  by_cases ht : textArg = ""
  · subst ht
    cases args with
    | nil => simp
    | cons a t => simp [joinArgs_eq_intercalate]
  · simp [ht]

/-- C3.  The effective source (resp. target) language is the long-form
flag if non-empty, else the shorthand flag if non-empty, else the
config value if non-empty, else "auto" (resp. "EN"); and whenever the
long-form flag is set, it wins regardless of the shorthand value. -/
theorem finalLang_precedence (cfg : Config) (longArg shortArg : String) :
    (finalSourceLang cfg longArg shortArg =
      if longArg ≠ "" then longArg
      else if shortArg ≠ "" then shortArg
      else if cfg.sourceLang ≠ "" then cfg.sourceLang
      else "auto") ∧
    (finalTargetLang cfg longArg shortArg =
      if longArg ≠ "" then longArg
      else if shortArg ≠ "" then shortArg
      else if cfg.targetLang ≠ "" then cfg.targetLang
      else "EN") ∧
    (longArg ≠ "" →
      finalSourceLang cfg longArg shortArg = longArg ∧
      finalTargetLang cfg longArg shortArg = longArg) := by
  refine ⟨?_, ?_, ?_⟩
  · unfold finalSourceLang finalLang
    by_cases hl : longArg = "" <;> by_cases hs : shortArg = "" <;>
      by_cases hc : cfg.sourceLang = "" <;> simp [hl, hs, hc]
  · unfold finalTargetLang finalLang
    by_cases hl : longArg = "" <;> by_cases hs : shortArg = "" <;>
      by_cases hc : cfg.targetLang = "" <;> simp [hl, hs, hc]
  · intro hl
    constructor <;> simp [finalSourceLang, finalTargetLang, finalLang, hl]

/-- Witness for C3: with the long-form flag set to "FR" and the
shorthand set to "DE", both effective languages are "FR". -/
theorem finalLang_precedence_witness :
    finalSourceLang ⟨"u", "ja", "ko"⟩ "FR" "DE" = "FR" ∧
    finalTargetLang ⟨"u", "ja", "ko"⟩ "FR" "DE" = "FR" :=
  (finalLang_precedence ⟨"u", "ja", "ko"⟩ "FR" "DE").2.2 (by decide)

/-- C4.  The effective URL is the url flag if non-empty, else the
config value if non-empty, else the built-in default constant; the flag
overrides the config whenever it is set. -/
theorem finalURL_precedence (cfg : Config) (urlArg : String) :
    (finalURL cfg urlArg =
      if urlArg ≠ "" then urlArg
      else if cfg.url ≠ "" then cfg.url
      else defaultDeepLXAPI) ∧
    (urlArg ≠ "" → finalURL cfg urlArg = urlArg) := by
  constructor
  · unfold finalURL
    by_cases hu : urlArg = "" <;> by_cases hc : cfg.url = "" <;> simp [hu, hc]
  · intro hu; simp [finalURL, hu]

/-- Witness for C4: a set url flag overrides a set config url. -/
theorem finalURL_precedence_witness :
    finalURL ⟨"http://cfg.example", "", ""⟩ "http://flag.example" =
      "http://flag.example" :=
  (finalURL_precedence ⟨"http://cfg.example", "", ""⟩ "http://flag.example").2
    (by decide)

/-- Counterexample for C5.  A stat failure other than not-exist — one
of the filesystem outcomes the claim says is never fatal — makes the
configuration phase exit fatally (the fatal log call at main.go line
136), even though the file may be perfectly loadable. -/
theorem loadPhase_statError_fatal :
    loadPhase .statOtherError true (.ok defaultConfig) = .fatal := rfl

/-- C5 as amended.  For every filesystem outcome other than a stat
failure — file absent (whether or not writing the generated default
succeeds), or present but unreadable or failing to parse as YAML — the
configuration phase is not fatal; on a read or parse failure it
continues with the default configuration (absent case) or the empty
configuration (present case). -/
theorem loadPhase_nonfatal (stat : StatResult) (writeOk : Bool)
    (loadResult : Except Unit Config) (h : stat ≠ .statOtherError) :
    (loadPhase stat writeOk loadResult).isFatal = false ∧
    loadPhase .statNotExist writeOk (.error ()) =
      .ok defaultConfig (some defaultConfig) ∧
    loadPhase .statOk writeOk (.error ()) = .ok ⟨"", "", ""⟩ none := by
  refine ⟨?_, rfl, rfl⟩
  cases stat with
  | statOk => cases loadResult <;> rfl
  | statNotExist => cases loadResult <;> rfl
  | statOtherError => exact absurd rfl h

/-- Witness for C5: the absent-file outcome with a failed write and a
failed reload is not fatal. -/
theorem loadPhase_nonfatal_witness :
    (loadPhase .statNotExist false (.error ())).isFatal = false ∧
    loadPhase .statNotExist false (.error ()) =
      .ok defaultConfig (some defaultConfig) ∧
    loadPhase .statOk false (.error ()) = .ok ⟨"", "", ""⟩ none :=
  loadPhase_nonfatal .statNotExist false (.error ()) (by decide)

/-- C6.  Whenever the resolved input text is empty, the run exits
fatally and issues no translation request. -/
theorem emptyInput_fatal (textArg : String) (args : List String)
    (stdin src tgt url : String)
    (h : resolveInputText textArg args stdin = "") :
    (resolveAndRun textArg args stdin src tgt url).exitsFatally = true ∧
    (resolveAndRun textArg args stdin src tgt url).issuedRequests = [] := by
  unfold resolveAndRun
  rw [h]
  exact ⟨rfl, rfl⟩

/-- Witness for C6: no text flag, no positional arguments, empty stdin. -/
theorem emptyInput_fatal_witness :
    (resolveAndRun "" [] "" "auto" "EN" defaultDeepLXAPI).exitsFatally = true ∧
    (resolveAndRun "" [] "" "auto" "EN" defaultDeepLXAPI).issuedRequests = [] :=
  emptyInput_fatal "" [] "" "auto" "EN" defaultDeepLXAPI (by decide)

/-- C7.  The output phase is independent of whether the clipboard write
succeeds: standard output and the exit code are identical in both
outcomes. -/
theorem clipboard_noninterference (translatedText : String) (c₁ c₂ : Bool) :
    outputPhase translatedText c₁ = outputPhase translatedText c₂ := rfl

/-- C8.  The configuration phase attempts a write exactly when the file
is found absent, and what it writes is the default document; when the
file exists (whatever the load outcome) or stat fails, nothing is ever
written. -/
theorem configWrite_only_when_absent (stat : StatResult) (writeOk : Bool)
    (loadResult : Except Unit Config) :
    (loadPhase stat writeOk loadResult).writtenDoc =
      if stat = .statNotExist then some defaultConfig else none := by
  cases stat <;> cases loadResult <;> rfl

/-- C9.  A flag explicitly set to the empty string coincides with an
absent flag (both leave the flag variable at its declared default "")
and falls through every precedence step: an empty text flag yields the
positional arguments or stdin, an empty url flag yields the config
value or the default constant, and empty language flags yield the
shorthand, config value or default. -/
theorem emptyFlag_falls_through (args : List String) (stdin : String)
    (cfg : Config) (short : String) :
    (resolveInputText "" args stdin =
      if args ≠ [] then String.intercalate " " args
      else trimSuffix stdin "\n") ∧
    (finalURL cfg "" = if cfg.url ≠ "" then cfg.url else defaultDeepLXAPI) ∧
    (finalSourceLang cfg "" "" =
      if cfg.sourceLang ≠ "" then cfg.sourceLang else "auto") ∧
    (finalTargetLang cfg "" "" =
      if cfg.targetLang ≠ "" then cfg.targetLang else "EN") ∧
    (finalSourceLang cfg "" short =
      if short ≠ "" then short
      else if cfg.sourceLang ≠ "" then cfg.sourceLang
      else "auto") := by
  refine ⟨?_, ?_, ?_, ?_, ?_⟩
  · unfold resolveInputText
    cases args with
    | nil => simp
    | cons a t => simp [joinArgs_eq_intercalate]
  · unfold finalURL
    by_cases hc : cfg.url = "" <;> simp [hc]
  · unfold finalSourceLang finalLang
    by_cases hc : cfg.sourceLang = "" <;> simp [hc]
  · unfold finalTargetLang finalLang
    by_cases hc : cfg.targetLang = "" <;> simp [hc]
  · unfold finalSourceLang finalLang
    by_cases hs : short = "" <;> by_cases hc : cfg.sourceLang = "" <;>
      simp [hs, hc]

/-- C10.  An HTTP 200 response whose decoded code field is 200 but
whose data field is empty is a success: `translateText` returns the
empty string, and the output phase prints a single bare newline and
exits 0, whatever the clipboard outcome. -/
theorem emptyData_success (decode : String → Option TranslationResponse)
    (body : String) (r : TranslationResponse) (clip : Bool)
    (hd : decode body = some r) (hc : r.code = 200) (hdata : r.data = "") :
    translateText decode (.response 200 body) = .ok "" ∧
    outputPhase "" clip = ("\n", 0) := by
  constructor
  · simp [translateText, hd, hc, hdata]
  · rfl

/-- Witness for C10: a concrete decoder returning code 200 and empty
data. -/
theorem emptyData_success_witness :
    translateText (fun _ => some ⟨200, 7, "", ""⟩) (.response 200 "b") = .ok "" ∧
    outputPhase "" true = ("\n", 0) :=
  emptyData_success (fun _ => some ⟨200, 7, "", ""⟩) "b" ⟨200, 7, "", ""⟩ true
    rfl rfl rfl
